import Mathlib

/-!
Verification of the AgentTask escrow ledger (src/contracts/AgentTask.sol).

Shallow embedding conventions:
* Addresses are natural numbers; 0 is the zero address (the "no agent" sentinel).
* Amounts and ids are natural numbers (uint256; none of the verified claims
  depend on 2^256 wraparound, which is unreachable for the counter and sums here).
* Solidity mappings are total functions with the zero/default value at
  uninitialised keys, exactly as the EVM storage model provides.
* Fallible operations return Except: a revert carries an error and, as on the
  EVM, discards every write of the transaction.  The runTx wrapper expresses
  the caller-visible outcome: on error the pre-state is kept unchanged.
* The require error strings of the contract are mapped to the symbolic error
  names of the specification:
    "Task does not exist"           -> TaskNotFound
    "Task already taken"            -> AlreadyClaimed
    "Submission URL cannot be empty"-> EmptySubmission
    "Only employer can approve"     -> Unauthorized
    "Task not submitted yet"        -> NotSubmitted
    "Task already approved"         -> AlreadyApproved
    "No agent assigned"             -> NoAgent
    "Reward must be greater than 0" -> InvalidReward
    "Description cannot be empty"   -> InvalidDescription
  and a failing external transfer in approveTask reverts with TransferFailed.
-/

namespace AgentTask

/-- The Task struct of AgentTask.sol. -/
structure Task where
  id : Nat
  employer : Nat
  agent : Nat
  description : String
  reward : Nat
  submissionUrl : String
  isSubmitted : Bool
  isApproved : Bool
  isCompleted : Bool
deriving DecidableEq

/-- The EVM default value of the Task struct: numeric fields zero, addresses
the zero address, strings empty, booleans false. -/
def defaultTask : Task :=
  { id := 0
    employer := 0
    agent := 0
    description := ""
    reward := 0
    submissionUrl := ""
    isSubmitted := false
    isApproved := false
    isCompleted := false }

/-- Symbolic names for the revert reasons of the contract (see the table in
the header comment). -/
inductive SolError where
  | TaskNotFound
  | AlreadyClaimed
  | EmptySubmission
  | Unauthorized
  | NotSubmitted
  | AlreadyApproved
  | NoAgent
  | InvalidReward
  | InvalidDescription
  | TransferFailed
deriving DecidableEq

/-- The storage of the AgentTask contract, together with the ether ledger the
EVM maintains around it: balances of external accounts and the contract's own
balance (the escrow pot). -/
structure ContractState where
  nextTaskId : Nat
  tasks : Nat → Task
  employerTasks : Nat → List Nat
  contractBalance : Nat
  balances : Nat → Nat

/-- Freshly deployed contract: empty storage, no escrowed funds; external
account balances are arbitrary. -/
def initState (balances : Nat → Nat) : ContractState :=
  { nextTaskId := 0
    tasks := fun _ => defaultTask
    employerTasks := fun _ => []
    contractBalance := 0
    balances := balances }

/-- The record stored by a successful createTask (AgentTask.sol lines 74-84). -/
def newTaskRecord (s : ContractState) (sender : Nat) (description : String)
    (value : Nat) : Task :=
  { id := s.nextTaskId
    employer := sender
    agent := 0
    description := description
    reward := value
    submissionUrl := ""
    isSubmitted := false
    isApproved := false
    isCompleted := false }

/-- The post-state of a successful createTask: stores the new record at
nextTaskId, appends the id to the caller's list, increments nextTaskId, and
moves msg.value from the caller into the contract's escrow balance. -/
def createdState (s : ContractState) (sender : Nat) (description : String)
    (value : Nat) : ContractState :=
  { nextTaskId := s.nextTaskId + 1
    tasks := fun i =>
      if i = s.nextTaskId then newTaskRecord s sender description value
      else s.tasks i
    employerTasks := fun a =>
      if a = sender then s.employerTasks a ++ [s.nextTaskId]
      else s.employerTasks a
    contractBalance := s.contractBalance + value
    balances := fun a => if a = sender then s.balances a - value else s.balances a }

/-- createTask (AgentTask.sol lines 67-97): requires msg.value > 0 and a
non-empty description, then stores the new task. -/
def createTask (s : ContractState) (sender : Nat) (description : String)
    (value : Nat) : Except SolError ContractState :=
  if 0 < value then
    if description ≠ "" then .ok (createdState s sender description value)
    else .error .InvalidDescription
  else .error .InvalidReward

/-- The post-state of a successful submitTask: sets agent, submissionUrl and
isSubmitted on the target task only. -/
def submittedState (s : ContractState) (sender : Nat) (taskId : Nat)
    (submissionUrl : String) : ContractState :=
  { s with
      tasks := fun i =>
        if i = taskId then
          { s.tasks taskId with
              agent := sender
              submissionUrl := submissionUrl
              isSubmitted := true }
        else s.tasks i }

/-- submitTask (AgentTask.sol lines 104-124): requires the task to exist, to be
unclaimed (agent is the zero address) and a non-empty url, then records the
claim and submission atomically. -/
def submitTask (s : ContractState) (sender : Nat) (taskId : Nat)
    (submissionUrl : String) : Except SolError ContractState :=
  if taskId < s.nextTaskId then
    if (s.tasks taskId).agent = 0 then
      if submissionUrl ≠ "" then .ok (submittedState s sender taskId submissionUrl)
      else .error .EmptySubmission
    else .error .AlreadyClaimed
  else .error .TaskNotFound

/-- The post-state of a successful approveTask: flags the task approved and
completed, and pays the escrowed reward out to the agent. -/
def approvedState (s : ContractState) (taskId : Nat) : ContractState :=
  { s with
      tasks := fun i =>
        if i = taskId then
          { s.tasks taskId with isApproved := true, isCompleted := true }
        else s.tasks i
      contractBalance := s.contractBalance - (s.tasks taskId).reward
      balances := fun a =>
        if a = (s.tasks taskId).agent then s.balances a + (s.tasks taskId).reward
        else s.balances a }

/-- approveTask (AgentTask.sol lines 130-155): five ordered requires, then the
flags are set and the reward is paid with Solidity transfer.  The external
transfer can fail (recipient rejects, modelled by the transferOk flag, or the
contract balance is insufficient); since transfer reverts on failure, the
whole operation reverts and no write survives. -/
def approveTask (s : ContractState) (sender : Nat) (taskId : Nat)
    (transferOk : Bool) : Except SolError ContractState :=
  if taskId < s.nextTaskId then
    if sender = (s.tasks taskId).employer then
      if (s.tasks taskId).isSubmitted = true then
        if (s.tasks taskId).isApproved = false then
          if (s.tasks taskId).agent ≠ 0 then
            if transferOk = true ∧ (s.tasks taskId).reward ≤ s.contractBalance then
              .ok (approvedState s taskId)
            else .error .TransferFailed
          else .error .NoAgent
        else .error .AlreadyApproved
      else .error .NotSubmitted
    else .error .Unauthorized
  else .error .TaskNotFound

/-- getTask (AgentTask.sol lines 164-167): reverts with TaskNotFound for an
out-of-range id, otherwise returns the stored record. -/
def getTask (s : ContractState) (taskId : Nat) : Except SolError Task :=
  if taskId < s.nextTaskId then .ok (s.tasks taskId) else .error .TaskNotFound

/-- getEmployerTasks (AgentTask.sol lines 174-176); the spec calls it
getTasksByEmployer. -/
def getEmployerTasks (s : ContractState) (employer : Nat) : List Nat :=
  s.employerTasks employer

/-- getTotalTasks (AgentTask.sol lines 182-184). -/
def getTotalTasks (s : ContractState) : Nat :=
  s.nextTaskId

/-- The compiler-generated public accessor of the tasks mapping
(AgentTask.sol line 32): a total read that returns the stored value, the
all-zero default at any key never written. -/
def tasksAccessor (s : ContractState) (taskId : Nat) : Task :=
  s.tasks taskId

/-- EVM transaction semantics around a contract call: a successful call
commits the new state, a revert keeps the pre-state and reports the error. -/
def runTx (s : ContractState) (r : Except SolError ContractState) :
    ContractState × Option SolError :=
  match r with
  | .ok s₁ => (s₁, none)
  | .error e => (s, some e)

/-- One successful external transaction against the contract.  The EVM
guarantees msg.sender is never the zero address, and that the caller owns at
least msg.value before a payable call. -/
inductive Step : ContractState → ContractState → Prop where
  | create {s : ContractState} (sender : Nat) (description : String)
      (value : Nat) {s₁ : ContractState} (hs : sender ≠ 0)
      (hb : value ≤ s.balances sender)
      (h : createTask s sender description value = .ok s₁) : Step s s₁
  | submit {s : ContractState} (sender : Nat) (taskId : Nat) (url : String)
      {s₁ : ContractState} (hs : sender ≠ 0)
      (h : submitTask s sender taskId url = .ok s₁) : Step s s₁
  | approve {s : ContractState} (sender : Nat) (taskId : Nat)
      (transferOk : Bool) {s₁ : ContractState} (hs : sender ≠ 0)
      (h : approveTask s sender taskId transferOk = .ok s₁) : Step s s₁

/-- Zero or more successful transactions. -/
def StepStar : ContractState → ContractState → Prop :=
  Relation.ReflTransGen Step

/-- States reachable from a fresh deployment by any sequence of transactions
(reverted transactions change nothing, so only successful ones matter). -/
inductive Reachable : ContractState → Prop where
  | init (balances : Nat → Nat) : Reachable (initState balances)
  | step {s s₁ : ContractState} : Reachable s → Step s s₁ → Reachable s₁

/-! ### Characterizations of the three mutating operations -/

theorem createTask_ok_iff (s : ContractState) (sender : Nat) (d : String)
    (v : Nat) (s₁ : ContractState) :
    createTask s sender d v = .ok s₁ ↔
      0 < v ∧ d ≠ "" ∧ s₁ = createdState s sender d v := by
  unfold createTask
  split_ifs with h1 h2 <;> simp_all [eq_comm]

theorem submitTask_ok_iff (s : ContractState) (sender : Nat) (taskId : Nat)
    (u : String) (s₁ : ContractState) :
    submitTask s sender taskId u = .ok s₁ ↔
      taskId < s.nextTaskId ∧ (s.tasks taskId).agent = 0 ∧ u ≠ "" ∧
      s₁ = submittedState s sender taskId u := by
  unfold submitTask
  split_ifs with h1 h2 h3 <;> simp_all [eq_comm]

theorem approveTask_ok_iff (s : ContractState) (sender : Nat) (taskId : Nat)
    (transferOk : Bool) (s₁ : ContractState) :
    approveTask s sender taskId transferOk = .ok s₁ ↔
      taskId < s.nextTaskId ∧ sender = (s.tasks taskId).employer ∧
      (s.tasks taskId).isSubmitted = true ∧
      (s.tasks taskId).isApproved = false ∧
      (s.tasks taskId).agent ≠ 0 ∧ transferOk = true ∧
      (s.tasks taskId).reward ≤ s.contractBalance ∧
      s₁ = approvedState s taskId := by
  unfold approveTask
  split_ifs with h1 h2 h3 h4 h5 h6
  · constructor
    · intro h
      exact ⟨h1, h2, h3, h4, h5, h6.1, h6.2, (Except.ok.inj h).symm⟩
    · rintro ⟨-, -, -, -, -, -, -, rfl⟩
      rfl
  all_goals exact iff_of_false (by simp) (by tauto)

/-! ### Small frame lemmas about the three success states -/

theorem createdState_tasks_lt (s : ContractState) (sender : Nat) (d : String)
    (v : Nat) (i : Nat) (h : i ≠ s.nextTaskId) :
    (createdState s sender d v).tasks i = s.tasks i := by
  simp [createdState, h]

theorem submittedState_tasks_ne (s : ContractState) (sender : Nat)
    (taskId : Nat) (u : String) (i : Nat) (h : i ≠ taskId) :
    (submittedState s sender taskId u).tasks i = s.tasks i := by
  simp [submittedState, h]

theorem approvedState_tasks_ne (s : ContractState) (taskId : Nat) (i : Nat)
    (h : i ≠ taskId) : (approvedState s taskId).tasks i = s.tasks i := by
  simp [approvedState, h]

/-! ### The inductive invariant of reachable states -/

/-- The state invariant maintained by every operation: storage beyond
nextTaskId is still all-default, a task is claimed exactly when it has been
submitted, the three life-cycle booleans are ordered, and each employer's
index list holds exactly the ids of that employer's tasks in id order. -/
def Inv (s : ContractState) : Prop :=
  (∀ i, s.nextTaskId ≤ i → s.tasks i = defaultTask) ∧
  (∀ i, ((s.tasks i).agent = 0 ↔ (s.tasks i).isSubmitted = false)) ∧
  (∀ i, (s.tasks i).isApproved = true → (s.tasks i).isSubmitted = true) ∧
  (∀ i, (s.tasks i).isCompleted = true → (s.tasks i).isApproved = true) ∧
  (∀ a, s.employerTasks a =
    (List.range s.nextTaskId).filter (fun i => decide ((s.tasks i).employer = a)))

theorem inv_init (balances : Nat → Nat) : Inv (initState balances) := by
  refine ⟨fun i _ => rfl, fun i => by simp [initState, defaultTask], ?_, ?_, ?_⟩ <;>
    simp [initState, defaultTask]

theorem inv_create (s : ContractState) (sender : Nat) (d : String) (v : Nat)
    (s₁ : ContractState) (hInv : Inv s)
    (h : createTask s sender d v = .ok s₁) : Inv s₁ := by
  obtain ⟨hv, hd, rfl⟩ := (createTask_ok_iff s sender d v s₁).1 h
  obtain ⟨hDef, hIff, hAS, hCA, hEmp⟩ := hInv
  refine ⟨?_, ?_, ?_, ?_, ?_⟩
  · intro i hi
    have hne : i ≠ s.nextTaskId := by
      intro hEq
      simp [createdState, hEq] at hi
    rw [createdState_tasks_lt s sender d v i hne]
    exact hDef i (by simp [createdState] at hi; omega)
  · intro i
    by_cases hne : i = s.nextTaskId
    · subst hne
      simp [createdState, newTaskRecord]
    · rw [createdState_tasks_lt s sender d v i hne]
      exact hIff i
  · intro i
    by_cases hne : i = s.nextTaskId
    · subst hne
      simp [createdState, newTaskRecord]
    · rw [createdState_tasks_lt s sender d v i hne]
      exact hAS i
  · intro i
    by_cases hne : i = s.nextTaskId
    · subst hne
      simp [createdState, newTaskRecord]
    · rw [createdState_tasks_lt s sender d v i hne]
      exact hCA i
  · intro a
    have hfilter :
        (List.range s.nextTaskId).filter
            (fun i => decide (((createdState s sender d v).tasks i).employer = a)) =
          (List.range s.nextTaskId).filter (fun i => decide ((s.tasks i).employer = a)) := by
      apply List.filter_congr
      intro i hi
      rw [createdState_tasks_lt s sender d v i (by simp at hi; omega)]
    have hrange : (createdState s sender d v).nextTaskId = s.nextTaskId + 1 := rfl
    have hLHS : (createdState s sender d v).employerTasks a =
        if a = sender then s.employerTasks a ++ [s.nextTaskId]
        else s.employerTasks a := rfl
    have hnew : (createdState s sender d v).tasks s.nextTaskId =
        newTaskRecord s sender d v := by
      simp [createdState]
    rw [hrange, List.range_succ, List.filter_append, hfilter, ← hEmp a, hLHS]
    by_cases ha : a = sender
    · simp [ha, hnew, newTaskRecord]
    · simp [ha, hnew, newTaskRecord, Ne.symm ha]

theorem inv_submit (s : ContractState) (sender : Nat) (taskId : Nat)
    (u : String) (s₁ : ContractState) (hInv : Inv s) (hs : sender ≠ 0)
    (h : submitTask s sender taskId u = .ok s₁) : Inv s₁ := by
  obtain ⟨hlt, hag, hu, rfl⟩ := (submitTask_ok_iff s sender taskId u s₁).1 h
  obtain ⟨hDef, hIff, hAS, hCA, hEmp⟩ := hInv
  have hnext : (submittedState s sender taskId u).nextTaskId = s.nextTaskId := rfl
  have htgt : (submittedState s sender taskId u).tasks taskId =
      { s.tasks taskId with
          agent := sender
          submissionUrl := u
          isSubmitted := true } := by
    simp [submittedState]
  refine ⟨?_, ?_, ?_, ?_, ?_⟩
  · intro i hi
    rw [hnext] at hi
    have hne : i ≠ taskId := by omega
    rw [submittedState_tasks_ne s sender taskId u i hne]
    exact hDef i hi
  · intro i
    by_cases hne : i = taskId
    · subst hne
      rw [htgt]
      simp [hs]
    · rw [submittedState_tasks_ne s sender taskId u i hne]
      exact hIff i
  · intro i
    by_cases hne : i = taskId
    · subst hne
      rw [htgt]
      simp
    · rw [submittedState_tasks_ne s sender taskId u i hne]
      exact hAS i
  · intro i
    by_cases hne : i = taskId
    · subst hne
      rw [htgt]
      exact hCA i
    · rw [submittedState_tasks_ne s sender taskId u i hne]
      exact hCA i
  · intro a
    have hemps : (submittedState s sender taskId u).employerTasks a =
        s.employerTasks a := rfl
    rw [hnext, hemps, hEmp a]
    apply List.filter_congr
    intro i hi
    by_cases hne : i = taskId
    · subst hne
      rw [htgt]
    · rw [submittedState_tasks_ne s sender taskId u i hne]

theorem inv_approve (s : ContractState) (sender : Nat) (taskId : Nat)
    (transferOk : Bool) (s₁ : ContractState) (hInv : Inv s)
    (h : approveTask s sender taskId transferOk = .ok s₁) : Inv s₁ := by
  obtain ⟨hlt, hemp, hsub, hnap, hag, htOk, hbal, rfl⟩ :=
    (approveTask_ok_iff s sender taskId transferOk s₁).1 h
  obtain ⟨hDef, hIff, hAS, hCA, hEmp⟩ := hInv
  have hnext : (approvedState s taskId).nextTaskId = s.nextTaskId := rfl
  have htgt : (approvedState s taskId).tasks taskId =
      { s.tasks taskId with isApproved := true, isCompleted := true } := by
    simp [approvedState]
  refine ⟨?_, ?_, ?_, ?_, ?_⟩
  · intro i hi
    rw [hnext] at hi
    have hne : i ≠ taskId := by omega
    rw [approvedState_tasks_ne s taskId i hne]
    exact hDef i hi
  · intro i
    by_cases hne : i = taskId
    · subst hne
      rw [htgt]
      simp [hag, hsub]
    · rw [approvedState_tasks_ne s taskId i hne]
      exact hIff i
  · intro i
    by_cases hne : i = taskId
    · subst hne
      rw [htgt]
      simp [hsub]
    · rw [approvedState_tasks_ne s taskId i hne]
      exact hAS i
  · intro i
    by_cases hne : i = taskId
    · subst hne
      rw [htgt]
      simp
    · rw [approvedState_tasks_ne s taskId i hne]
      exact hCA i
  · intro a
    have hemps : (approvedState s taskId).employerTasks a = s.employerTasks a := rfl
    rw [hnext, hemps, hEmp a]
    apply List.filter_congr
    intro i hi
    by_cases hne : i = taskId
    · subst hne
      rw [htgt]
    · rw [approvedState_tasks_ne s taskId i hne]

theorem inv_step (s s₁ : ContractState) (hInv : Inv s) (h : Step s s₁) :
    Inv s₁ := by
  cases h with
  | create sender d v hs hb hc => exact inv_create s sender d v s₁ hInv hc
  | submit sender taskId u hs hc => exact inv_submit s sender taskId u s₁ hInv hs hc
  | approve sender taskId tOk hs hc => exact inv_approve s sender taskId tOk s₁ hInv hc

theorem reachable_inv (s : ContractState) (h : Reachable s) : Inv s := by
  induction h with
  | init balances => exact inv_init balances
  | step hR hS ih => exact inv_step _ _ ih hS

/-! ### Once a task is claimed, its claim data is frozen -/

theorem step_preserves_claimed (s s₁ : ContractState) (i : Nat) (h : Step s s₁)
    (hlt : i < s.nextTaskId) (hag : (s.tasks i).agent ≠ 0) :
    i < s₁.nextTaskId ∧
    (s₁.tasks i).agent = (s.tasks i).agent ∧
    (s₁.tasks i).submissionUrl = (s.tasks i).submissionUrl ∧
    (s₁.tasks i).isSubmitted = (s.tasks i).isSubmitted ∧
    (s₁.tasks i).employer = (s.tasks i).employer ∧
    (s₁.tasks i).reward = (s.tasks i).reward ∧
    ((s.tasks i).isApproved = true → (s₁.tasks i).isApproved = true) := by
  cases h with
  | create sender d v hs hb hc =>
      obtain ⟨hv, hd, rfl⟩ := (createTask_ok_iff s sender d v _).1 hc
      have hne : i ≠ s.nextTaskId := by omega
      rw [createdState_tasks_lt s sender d v i hne]
      exact ⟨by simp [createdState]; omega, rfl, rfl, rfl, rfl, rfl, fun h => h⟩
  | submit sender taskId u hs hc =>
      obtain ⟨hlt2, hag0, hu, rfl⟩ := (submitTask_ok_iff s sender taskId u _).1 hc
      have hne : i ≠ taskId := fun hEq => hag (hEq ▸ hag0)
      rw [submittedState_tasks_ne s sender taskId u i hne]
      exact ⟨hlt, rfl, rfl, rfl, rfl, rfl, fun h => h⟩
  | approve sender taskId tOk hs hc =>
      obtain ⟨hlt2, hemp, hsub, hnap, hag2, htOk, hbal, rfl⟩ :=
        (approveTask_ok_iff s sender taskId tOk _).1 hc
      by_cases hne : i = taskId
      · subst hne
        have htgt : (approvedState s i).tasks i =
            { s.tasks i with isApproved := true, isCompleted := true } := by
          simp [approvedState]
        rw [htgt]
        exact ⟨hlt, rfl, rfl, rfl, rfl, rfl, fun _ => rfl⟩
      · rw [approvedState_tasks_ne s taskId i hne]
        exact ⟨hlt, rfl, rfl, rfl, rfl, rfl, fun h => h⟩

theorem stepStar_preserves_claimed (s s₁ : ContractState) (i : Nat)
    (h : StepStar s s₁) (hlt : i < s.nextTaskId)
    (hag : (s.tasks i).agent ≠ 0) :
    i < s₁.nextTaskId ∧
    (s₁.tasks i).agent = (s.tasks i).agent ∧
    (s₁.tasks i).submissionUrl = (s.tasks i).submissionUrl ∧
    (s₁.tasks i).isSubmitted = (s.tasks i).isSubmitted ∧
    (s₁.tasks i).employer = (s.tasks i).employer ∧
    (s₁.tasks i).reward = (s.tasks i).reward ∧
    ((s.tasks i).isApproved = true → (s₁.tasks i).isApproved = true) := by
  induction h with
  | refl => exact ⟨hlt, rfl, rfl, rfl, rfl, rfl, fun h => h⟩
  | tail hstar hstep ih =>
      obtain ⟨ih1, ih2, ih3, ih4, ih5, ih6, ih7⟩ := ih
      obtain ⟨j1, j2, j3, j4, j5, j6, j7⟩ :=
        step_preserves_claimed _ _ i hstep ih1 (by rw [ih2]; exact hag)
      exact ⟨j1, j2.trans ih2, j3.trans ih3, j4.trans ih4, j5.trans ih5,
        j6.trans ih6, fun hap => j7 (ih7 hap)⟩

/-! ### A concrete execution used to witness the theorems below: employer 1
creates task 0 with reward 100, agent 2 submits, employer 1 approves. -/

/-- Commit helper for building concrete states from successful calls. -/
def exOkState (r : Except SolError ContractState) (fallback : ContractState) :
    ContractState :=
  match r with
  | .ok s => s
  | .error _ => fallback

def s0 : ContractState := initState fun _ => 1000

def s1 : ContractState := exOkState (createTask s0 1 "paint the fence" 100) s0

def s2 : ContractState := exOkState (submitTask s1 2 0 "ipfs work") s1

def s3 : ContractState := exOkState (approveTask s2 1 0 true) s2

theorem s1_ok : createTask s0 1 "paint the fence" 100 = .ok s1 := rfl

theorem s2_ok : submitTask s1 2 0 "ipfs work" = .ok s2 := rfl

theorem s3_ok : approveTask s2 1 0 true = .ok s3 := rfl

theorem reachable_s1 : Reachable s1 :=
  (Reachable.init _).step (Step.create 1 "paint the fence" 100 (by decide) (by decide) s1_ok)

theorem reachable_s2 : Reachable s2 :=
  reachable_s1.step (Step.submit 2 0 "ipfs work" (by decide) s2_ok)

theorem reachable_s3 : Reachable s3 :=
  reachable_s2.step (Step.approve 1 0 true (by decide) s3_ok)

/-! ### Claim theorems -/

/-- C1: a successful approveTask on an existing task sets both isApproved and
isCompleted to true, credits exactly the task's reward to the task's agent
(leaving every other balance untouched and debiting the escrow by the same
amount), and can never succeed again for that task in any later state; a
failing call — transfer failure included — commits no state change at all. -/
theorem C1_approve_pays_exactly_once (s : ContractState) (sender taskId : Nat)
    (transferOk : Bool) :
    (∀ s₁, approveTask s sender taskId transferOk = .ok s₁ →
      taskId < s.nextTaskId ∧
      (s₁.tasks taskId).isApproved = true ∧
      (s₁.tasks taskId).isCompleted = true ∧
      s₁.balances (s.tasks taskId).agent
        = s.balances (s.tasks taskId).agent + (s.tasks taskId).reward ∧
      (∀ a, a ≠ (s.tasks taskId).agent → s₁.balances a = s.balances a) ∧
      s₁.contractBalance + (s.tasks taskId).reward = s.contractBalance ∧
      (∀ s₂, StepStar s₁ s₂ →
        ∀ sender2 tOk2 s₃, approveTask s₂ sender2 taskId tOk2 ≠ .ok s₃)) ∧
    (∀ e, approveTask s sender taskId transferOk = .error e →
      runTx s (approveTask s sender taskId transferOk) = (s, some e)) := by
  constructor
  · intro s₁ h
    obtain ⟨hlt, hemp, hsub, hnap, hag, htOk, hbal, rfl⟩ :=
      (approveTask_ok_iff s sender taskId transferOk s₁).1 h
    have htgt : (approvedState s taskId).tasks taskId =
        { s.tasks taskId with isApproved := true, isCompleted := true } := by
      simp [approvedState]
    refine ⟨hlt, by rw [htgt], by rw [htgt], ?_, ?_, ?_, ?_⟩
    · simp [approvedState]
    · intro a ha
      simp [approvedState, ha]
    · show s.contractBalance - (s.tasks taskId).reward + (s.tasks taskId).reward = _
      omega
    · intro s₂ hstar sender2 tOk2 s₃ h2
      obtain ⟨k1, k2, k3, k4, k5, k6, k7⟩ :=
        stepStar_preserves_claimed _ _ taskId hstar hlt (by rw [htgt]; exact hag)
      have hap2 : (s₂.tasks taskId).isApproved = true := k7 (by rw [htgt])
      obtain ⟨_, _, _, hap3, _⟩ :=
        (approveTask_ok_iff s₂ sender2 taskId tOk2 s₃).1 h2
      simp [hap2] at hap3
  · intro e hErr
    simp [runTx, hErr]

/-- C1 witness: in the concrete run, approving task 0 flips both flags and
pays agent 2 exactly the 100 escrowed at creation, and a repeat approval by
anyone fails. -/
theorem C1_witness :
    (s3.tasks 0).isApproved = true ∧ (s3.tasks 0).isCompleted = true ∧
    s3.balances 2 = s2.balances 2 + 100 ∧
    approveTask s3 1 0 true ≠ .ok s3 := by
  have h := (C1_approve_pays_exactly_once s2 1 0 true).1 s3 s3_ok
  exact ⟨h.2.1, h.2.2.1, h.2.2.2.1,
    h.2.2.2.2.2.2 s3 Relation.ReflTransGen.refl 1 true s3⟩

/-- C2: approveTask rejects with the first failing check in the contract's
order — TaskNotFound for an out-of-range id, Unauthorized for a non-employer
caller on an existing task, NotSubmitted for the employer before submission,
AlreadyApproved once the task is approved (in particular on any repeat call
by the employer after a successful approval), and NoAgent when no agent is
recorded on a submitted unapproved task — and every rejected call leaves the
state, hence all funds, unchanged. -/
theorem C2_approve_error_cases (s : ContractState) (sender taskId : Nat)
    (tOk : Bool) :
    (¬ taskId < s.nextTaskId →
      approveTask s sender taskId tOk = .error .TaskNotFound) ∧
    (taskId < s.nextTaskId → sender ≠ (s.tasks taskId).employer →
      approveTask s sender taskId tOk = .error .Unauthorized) ∧
    (taskId < s.nextTaskId → sender = (s.tasks taskId).employer →
      (s.tasks taskId).isSubmitted = false →
      approveTask s sender taskId tOk = .error .NotSubmitted) ∧
    (taskId < s.nextTaskId → sender = (s.tasks taskId).employer →
      (s.tasks taskId).isSubmitted = true →
      (s.tasks taskId).isApproved = true →
      approveTask s sender taskId tOk = .error .AlreadyApproved) ∧
    (taskId < s.nextTaskId → sender = (s.tasks taskId).employer →
      (s.tasks taskId).isSubmitted = true →
      (s.tasks taskId).isApproved = false →
      (s.tasks taskId).agent = 0 →
      approveTask s sender taskId tOk = .error .NoAgent) ∧
    (∀ s₁, approveTask s sender taskId tOk = .ok s₁ →
      ∀ tOk2, approveTask s₁ sender taskId tOk2 = .error .AlreadyApproved) ∧
    (∀ e, approveTask s sender taskId tOk = .error e →
      runTx s (approveTask s sender taskId tOk) = (s, some e)) := by
  refine ⟨?_, ?_, ?_, ?_, ?_, ?_, ?_⟩
  · intro h1
    simp [approveTask, h1]
  · intro h1 h2
    simp [approveTask, h1, h2]
  · intro h1 h2 h3
    simp [approveTask, h1, h2, h3]
  · intro h1 h2 h3 h4
    simp [approveTask, h1, h2, h3, h4]
  · intro h1 h2 h3 h4 h5
    simp [approveTask, h1, h2, h3, h4, h5]
  · intro s₁ h tOk2
    obtain ⟨hlt, hemp, hsub, hnap, hag, htOk, hbal, rfl⟩ :=
      (approveTask_ok_iff s sender taskId tOk s₁).1 h
    have htgt : (approvedState s taskId).tasks taskId =
        { s.tasks taskId with isApproved := true, isCompleted := true } := by
      simp [approvedState]
    have hN : (approvedState s taskId).nextTaskId = s.nextTaskId := rfl
    simp [approveTask, hN, htgt, hlt, ← hemp, hsub]
  · intro e hErr
    simp [runTx, hErr]

/-- C2 witness: in the concrete run, the five rejection cases fire as stated
(out-of-range id, non-employer caller, unsubmitted task, repeat approval) and
the rejected calls leave the state unchanged. -/
theorem C2_witness :
    approveTask s2 1 5 true = .error .TaskNotFound ∧
    approveTask s2 3 0 true = .error .Unauthorized ∧
    approveTask s1 1 0 true = .error .NotSubmitted ∧
    approveTask s3 1 0 true = .error .AlreadyApproved ∧
    runTx s2 (approveTask s2 3 0 true) = (s2, some .Unauthorized) := by
  refine ⟨?_, ?_, ?_, ?_, ?_⟩
  · exact (C2_approve_error_cases s2 1 5 true).1 (by decide)
  · exact (C2_approve_error_cases s2 3 0 true).2.1 (by decide) (by decide)
  · exact (C2_approve_error_cases s1 1 0 true).2.2.1 (by decide) (by decide) rfl
  · exact (C2_approve_error_cases s2 1 0 true).2.2.2.2.2.1 s3 s3_ok true
  · exact (C2_approve_error_cases s2 3 0 true).2.2.2.2.2.2 .Unauthorized
      ((C2_approve_error_cases s2 3 0 true).2.1 (by decide) (by decide))

/-- C3: the first successful submitTask on a task records the caller as agent,
stores the given submissionUrl and sets isSubmitted; in every later state,
any further submitTask on that task (any caller, any url) is rejected with
AlreadyClaimed, and agent and submissionUrl still hold exactly what the first
submission wrote. -/
theorem C3_first_submit_wins (s : ContractState) (sender taskId : Nat)
    (url : String) (s₁ : ContractState) (hs : sender ≠ 0)
    (h : submitTask s sender taskId url = .ok s₁) :
    (s₁.tasks taskId).agent = sender ∧
    (s₁.tasks taskId).submissionUrl = url ∧
    (s₁.tasks taskId).isSubmitted = true ∧
    (∀ s₂, StepStar s₁ s₂ →
      (s₂.tasks taskId).agent = sender ∧
      (s₂.tasks taskId).submissionUrl = url ∧
      (s₂.tasks taskId).isSubmitted = true ∧
      ∀ sender2 url2, submitTask s₂ sender2 taskId url2 = .error .AlreadyClaimed) := by
  obtain ⟨hlt, hag0, hu, rfl⟩ := (submitTask_ok_iff s sender taskId url s₁).1 h
  have htgt : (submittedState s sender taskId url).tasks taskId =
      { s.tasks taskId with
          agent := sender
          submissionUrl := url
          isSubmitted := true } := by
    simp [submittedState]
  refine ⟨by rw [htgt], by rw [htgt], by rw [htgt], ?_⟩
  intro s₂ hstar
  obtain ⟨k1, k2, k3, k4, k5, k6, k7⟩ :=
    stepStar_preserves_claimed _ _ taskId hstar hlt (by rw [htgt]; exact hs)
  have hagent : (s₂.tasks taskId).agent = sender := by rw [k2, htgt]
  refine ⟨hagent, by rw [k3, htgt], by rw [k4, htgt], ?_⟩
  intro sender2 url2
  simp [submitTask, k1, hagent, hs]

/-- C3 witness: agent 2's submission to task 0 records agent and url, and a
later submission attempt by agent 3 is rejected with AlreadyClaimed, leaving
the first submission's data in place. -/
theorem C3_witness :
    (s2.tasks 0).agent = 2 ∧
    (s2.tasks 0).submissionUrl = "ipfs work" ∧
    (s2.tasks 0).isSubmitted = true ∧
    submitTask s2 3 0 "other url" = .error .AlreadyClaimed := by
  have h := C3_first_submit_wins s1 2 0 "ipfs work" s2 (by decide) s2_ok
  have h2 := h.2.2.2 s2 Relation.ReflTransGen.refl
  exact ⟨h.1, h.2.1, h.2.2.1, h2.2.2.2 3 "other url"⟩

/-- C4: a successful createTask stores the new task under the id equal to
getTotalTasks observed before the call, stamps that id into the record, and
getTotalTasks afterwards is exactly one larger. -/
theorem C4_create_sequential_ids (s : ContractState) (sender : Nat)
    (d : String) (v : Nat) (s₁ : ContractState)
    (h : createTask s sender d v = .ok s₁) :
    (s₁.tasks (getTotalTasks s)).id = getTotalTasks s ∧
    getTask s₁ (getTotalTasks s) = .ok (s₁.tasks (getTotalTasks s)) ∧
    getTotalTasks s₁ = getTotalTasks s + 1 := by
  obtain ⟨hv, hd, rfl⟩ := (createTask_ok_iff s sender d v s₁).1 h
  refine ⟨?_, ?_, rfl⟩
  · simp [createdState, newTaskRecord, getTotalTasks]
  · simp [getTask, getTotalTasks, createdState]

/-- C4 witness: in the concrete run the task created in the empty state gets
id 0 and the total goes from 0 to 1. -/
theorem C4_witness :
    (s1.tasks (getTotalTasks s0)).id = getTotalTasks s0 ∧
    getTotalTasks s1 = getTotalTasks s0 + 1 := by
  have h := C4_create_sequential_ids s0 1 "paint the fence" 100 s1 s1_ok
  exact ⟨h.1, h.2.2⟩

/-- C5: createTask with zero value is rejected with InvalidReward (whatever
the description), createTask with a positive value and empty description is
rejected with InvalidDescription, and any rejected creation leaves the state
unchanged — no record, same total, same employer index list. -/
theorem C5_create_rejects_invalid (s : ContractState) (sender : Nat)
    (d : String) (v : Nat) :
    (createTask s sender d 0 = .error .InvalidReward) ∧
    (0 < v → createTask s sender "" v = .error .InvalidDescription) ∧
    (∀ e, createTask s sender d v = .error e →
      runTx s (createTask s sender d v) = (s, some e) ∧
      getTotalTasks (runTx s (createTask s sender d v)).1 = getTotalTasks s ∧
      getEmployerTasks (runTx s (createTask s sender d v)).1 sender =
        getEmployerTasks s sender) := by
  refine ⟨?_, ?_, ?_⟩
  · simp [createTask]
  · intro hv
    simp [createTask, hv]
  · intro e hErr
    simp [runTx, hErr]

/-- C5 witness: a creation with zero value and one with an empty description
are both rejected as stated and change nothing. -/
theorem C5_witness :
    createTask s1 1 "some job" 0 = .error .InvalidReward ∧
    createTask s1 1 "" 5 = .error .InvalidDescription ∧
    getTotalTasks (runTx s1 (createTask s1 1 "some job" 0)).1 = getTotalTasks s1 := by
  have h := C5_create_rejects_invalid s1 1 "some job" 0
  exact ⟨h.1, (C5_create_rejects_invalid s1 1 "" 5).2.1 (by decide),
    (h.2.2 .InvalidReward h.1).2.1⟩

/-- C6: in every reachable state, every task record satisfies the life-cycle
ordering — isApproved implies isSubmitted, and isCompleted implies
isApproved. -/
theorem C6_lifecycle_flags (s : ContractState) (h : Reachable s) (i : Nat) :
    ((s.tasks i).isApproved = true → (s.tasks i).isSubmitted = true) ∧
    ((s.tasks i).isCompleted = true → (s.tasks i).isApproved = true) := by
  obtain ⟨_, _, hAS, hCA, _⟩ := reachable_inv s h
  exact ⟨hAS i, hCA i⟩

/-- C6 witness: the approved task 0 of the concrete run is submitted and
approved, as the life-cycle ordering forces. -/
theorem C6_witness :
    (s3.tasks 0).isSubmitted = true ∧ (s3.tasks 0).isApproved = true := by
  have h := C6_lifecycle_flags s3 reachable_s3 0
  exact ⟨h.1 rfl, h.2 rfl⟩

/-- C7: in every reachable state a task's agent is the zero address exactly
when the task is not submitted, and once the agent is set it is never changed
by any later sequence of operations. -/
theorem C7_agent_iff_submitted (s : ContractState) (h : Reachable s) (i : Nat) :
    ((s.tasks i).agent = 0 ↔ (s.tasks i).isSubmitted = false) ∧
    (∀ s₁, StepStar s s₁ → (s.tasks i).agent ≠ 0 →
      (s₁.tasks i).agent = (s.tasks i).agent) := by
  obtain ⟨hDef, hIff, _, _, _⟩ := reachable_inv s h
  refine ⟨hIff i, ?_⟩
  intro s₁ hstar hag
  by_cases hlt : i < s.nextTaskId
  · exact (stepStar_preserves_claimed s s₁ i hstar hlt hag).2.1
  · exfalso
    apply hag
    rw [hDef i (by omega)]
    rfl

/-- C7 witness: at the submitted state of the concrete run the claimed task
violates neither side of the iff, and the approval step leaves its agent
unchanged. -/
theorem C7_witness :
    ((s2.tasks 0).agent = 0 ↔ (s2.tasks 0).isSubmitted = false) ∧
    (s3.tasks 0).agent = (s2.tasks 0).agent := by
  have h := C7_agent_iff_submitted s2 reachable_s2 0
  exact ⟨h.1, h.2 s3
    (Relation.ReflTransGen.single (Step.approve 1 0 true (by decide) s3_ok))
    (by decide)⟩

/-- C8: in every reachable state, getEmployerTasks lists exactly the ids of
the tasks whose employer is the queried identity, in creation order, which is
strictly increasing id order. -/
theorem C8_employer_index_exact (s : ContractState) (h : Reachable s) (a : Nat) :
    getEmployerTasks s a =
      (List.range (getTotalTasks s)).filter
        (fun i => decide ((s.tasks i).employer = a)) ∧
    (∀ i, i ∈ getEmployerTasks s a ↔
      i < getTotalTasks s ∧ (s.tasks i).employer = a) ∧
    List.Pairwise (· < ·) (getEmployerTasks s a) := by
  obtain ⟨_, _, _, _, hEmp⟩ := reachable_inv s h
  have hq : getEmployerTasks s a =
      (List.range s.nextTaskId).filter
        (fun i => decide ((s.tasks i).employer = a)) := hEmp a
  refine ⟨hq, ?_, ?_⟩
  · intro i
    rw [show getEmployerTasks s a = _ from hq]
    simp [List.mem_filter, List.mem_range, getTotalTasks]
  · rw [show getEmployerTasks s a = _ from hq]
    exact (List.pairwise_lt_range _).filter _

/-- C8 witness: in the concrete run employer 1 owns exactly task 0 and the
index list matches the filter characterization. -/
theorem C8_witness :
    getEmployerTasks s3 1 =
      (List.range (getTotalTasks s3)).filter
        (fun i => decide ((s3.tasks i).employer = 1)) ∧
    List.Pairwise (· < ·) (getEmployerTasks s3 1) ∧
    (0 ∈ getEmployerTasks s3 1 ↔ 0 < getTotalTasks s3 ∧ (s3.tasks 0).employer = 1) := by
  have h := C8_employer_index_exact s3 reachable_s3 1
  exact ⟨h.1, h.2.2, h.2.1 0⟩

/-- C9: a successful submitTask changes only the target task's agent,
submissionUrl and isSubmitted, and a successful approveTask changes only the
target task's isApproved and isCompleted; every other field of the target
task, every other task record, the id counter and the employer index are
returned unchanged by the subsequent getTask queries. -/
theorem C9_mutation_frames (s : ContractState) (sender taskId : Nat)
    (url : String) (tOk : Bool) :
    (∀ s₁, submitTask s sender taskId url = .ok s₁ →
      s₁.nextTaskId = s.nextTaskId ∧
      s₁.employerTasks = s.employerTasks ∧
      s₁.contractBalance = s.contractBalance ∧
      s₁.balances = s.balances ∧
      (∀ j, j ≠ taskId → s₁.tasks j = s.tasks j) ∧
      (s₁.tasks taskId).id = (s.tasks taskId).id ∧
      (s₁.tasks taskId).employer = (s.tasks taskId).employer ∧
      (s₁.tasks taskId).description = (s.tasks taskId).description ∧
      (s₁.tasks taskId).reward = (s.tasks taskId).reward ∧
      (s₁.tasks taskId).isApproved = (s.tasks taskId).isApproved ∧
      (s₁.tasks taskId).isCompleted = (s.tasks taskId).isCompleted ∧
      (s₁.tasks taskId).agent = sender ∧
      (s₁.tasks taskId).submissionUrl = url ∧
      (s₁.tasks taskId).isSubmitted = true ∧
      getTask s₁ taskId = .ok (s₁.tasks taskId)) ∧
    (∀ s₁, approveTask s sender taskId tOk = .ok s₁ →
      s₁.nextTaskId = s.nextTaskId ∧
      s₁.employerTasks = s.employerTasks ∧
      (∀ j, j ≠ taskId → s₁.tasks j = s.tasks j) ∧
      (s₁.tasks taskId).id = (s.tasks taskId).id ∧
      (s₁.tasks taskId).employer = (s.tasks taskId).employer ∧
      (s₁.tasks taskId).description = (s.tasks taskId).description ∧
      (s₁.tasks taskId).reward = (s.tasks taskId).reward ∧
      (s₁.tasks taskId).agent = (s.tasks taskId).agent ∧
      (s₁.tasks taskId).submissionUrl = (s.tasks taskId).submissionUrl ∧
      (s₁.tasks taskId).isSubmitted = (s.tasks taskId).isSubmitted ∧
      (s₁.tasks taskId).isApproved = true ∧
      (s₁.tasks taskId).isCompleted = true ∧
      getTask s₁ taskId = .ok (s₁.tasks taskId)) := by
  constructor
  · intro s₁ h
    obtain ⟨hlt, hag0, hu, rfl⟩ := (submitTask_ok_iff s sender taskId url s₁).1 h
    have htgt : (submittedState s sender taskId url).tasks taskId =
        { s.tasks taskId with
            agent := sender
            submissionUrl := url
            isSubmitted := true } := by
      simp [submittedState]
    have hlt2 : taskId < (submittedState s sender taskId url).nextTaskId := hlt
    refine ⟨rfl, rfl, rfl, rfl,
      fun j hj => submittedState_tasks_ne s sender taskId url j hj,
      by rw [htgt], by rw [htgt], by rw [htgt], by rw [htgt], by rw [htgt],
      by rw [htgt], by rw [htgt], by rw [htgt], by rw [htgt], ?_⟩
    simp [getTask, hlt2]
  · intro s₁ h
    obtain ⟨hlt, hemp, hsub, hnap, hag, htOk, hbal, rfl⟩ :=
      (approveTask_ok_iff s sender taskId tOk s₁).1 h
    have htgt : (approvedState s taskId).tasks taskId =
        { s.tasks taskId with isApproved := true, isCompleted := true } := by
      simp [approvedState]
    have hlt2 : taskId < (approvedState s taskId).nextTaskId := hlt
    refine ⟨rfl, rfl, fun j hj => approvedState_tasks_ne s taskId j hj,
      by rw [htgt], by rw [htgt], by rw [htgt], by rw [htgt], by rw [htgt],
      by rw [htgt], by rw [htgt], by rw [htgt], by rw [htgt], ?_⟩
    simp [getTask, hlt2]

/-- C9 witness: in the concrete run, the submission leaves the creation
fields of task 0 in place and the approval leaves the submission fields in
place. -/
theorem C9_witness :
    (s2.tasks 0).description = (s1.tasks 0).description ∧
    (s2.tasks 0).reward = (s1.tasks 0).reward ∧
    (s3.tasks 0).agent = (s2.tasks 0).agent ∧
    (s3.tasks 0).submissionUrl = (s2.tasks 0).submissionUrl ∧
    getTask s3 0 = .ok (s3.tasks 0) := by
  have h1 := (C9_mutation_frames s1 2 0 "ipfs work" true).1 s2 s2_ok
  have h2 := (C9_mutation_frames s2 1 0 "ipfs work" true).2 s3 s3_ok
  exact ⟨h1.2.2.2.2.2.2.2.1, h1.2.2.2.2.2.2.2.2.1,
    h2.2.2.2.2.2.2.2.1, h2.2.2.2.2.2.2.2.2.1,
    h2.2.2.2.2.2.2.2.2.2.2.2.2⟩

/-- C10: the public tasks accessor is total — on every reachable state it
returns, for any id at or beyond the task count, the all-default record
(zero numbers, zero addresses, empty strings, false booleans), while getTask
rejects the same id with TaskNotFound. -/
theorem C10_raw_accessor_defaults (s : ContractState) (h : Reachable s)
    (taskId : Nat) (hout : getTotalTasks s ≤ taskId) :
    tasksAccessor s taskId = defaultTask ∧
    getTask s taskId = .error .TaskNotFound := by
  obtain ⟨hDef, _, _, _, _⟩ := reachable_inv s h
  refine ⟨hDef taskId hout, ?_⟩
  have hnlt : ¬ taskId < s.nextTaskId := not_lt.mpr hout
  simp [getTask, hnlt]

/-- C10 witness: reading id 7 of the one-task concrete state through the raw
accessor yields the zero record while getTask rejects it. -/
theorem C10_witness :
    tasksAccessor s3 7 = defaultTask ∧ getTask s3 7 = .error .TaskNotFound :=
  C10_raw_accessor_defaults s3 reachable_s3 7 (by decide)

end AgentTask
